import Mathlib

/-!
# Verification of the kuba-libre marble-game UI layer

Shallow embedding of the TypeScript sources of the `marble_game_ui`
front end (board-string parsing, API request/response handling, response
type guards, pointer-gesture direction mapping, marble-color selection)
together with a model, taken from the design document, of the rules
engine's move check (the engine itself lives behind the HTTP API).
-/

namespace KubaLibre

/-! ## Grid parsing (`src/marble_game_ui/src/utils/parseGridString.ts`)

A JavaScript row array may in principle receive a write past its end
(which pads with holes), so cells are modelled as `Option Char` with
`none` standing for a hole (`undefined`); an attempt to write through a
missing row (`grid[i]` is `undefined`) is a `TypeError`, modelled by the
whole computation returning `none`. -/

/-- One row of the grid under construction: JS array of `MarbleCharacter`,
holes (`undefined`) as `none`. -/
abbrev JsRow := List (Option Char)

/-- The grid under construction: JS array of rows. -/
abbrev JsGrid := List JsRow

/-- JS array element assignment `row[j] = v`: in-bounds writes replace,
out-of-bounds writes pad the array with holes up to index `j`. -/
def jsArraySet (row : JsRow) (j : Nat) (v : Char) : JsRow :=
  if j < row.length then row.set j (some v)
  else row ++ List.replicate (j - row.length) none ++ [some v]

/-- One iteration of the `parseGridString` loop:
`grid[Math.trunc(i / 7)][Math.trunc(i % 7)] = gridString[i]`.
If row `i / 7` does not exist the assignment faults (`none`). -/
def writeChar (grid : JsGrid) (i : Nat) (c : Char) : Option JsGrid :=
  match grid[i / 7]? with
  | none => none
  | some row => some (grid.set (i / 7) (jsArraySet row (i % 7) c))

/-- The `for` loop of `parseGridString`, run over the index/character
pairs of the input string. -/
def parseGridAux : List (Nat × Char) → JsGrid → Option JsGrid
  | [], grid => some grid
  | (i, c) :: rest, grid =>
    match writeChar grid i c with
    | none => none
    | some grid2 => parseGridAux rest grid2

/-- `parseGridString` from `parseGridString.ts`: allocates 7 empty row
arrays, then writes character `i` of the input to row `i / 7`,
column `i % 7`. -/
def parseGridString (s : List Char) : Option JsGrid :=
  parseGridAux s.enum (List.replicate 7 [])

/-- The alphabet of `MarbleCharacter` (`types.ts`). -/
def MarbleCharacter : List Char := ['B', 'R', 'W', ' ']

/-- The portion of the input string landing in row `r` after the first
`n` characters have been processed: characters `7*r`, …, capped at 7. -/
def windowRow (s : List Char) (n : Nat) (r : Nat) : JsRow :=
  ((s.drop (7 * r)).take (min 7 (n - 7 * r))).map some

/-- Row-major concatenation of a character grid — the encoder direction
of the board encoding (design document §4.1 `toCompactString`). -/
def joinGrid (g : List (List Char)) : List Char := g.flatten

/-- Entry of a parsed grid at row `r`, column `c` (as the components read
it: `grid[r][c]`). -/
def gridEntry (g : JsGrid) (r c : Nat) : Option (Option Char) :=
  g[r]?.bind (fun row => row[c]?)

lemma windowRow_stable (s : List Char) (n j : Nat) (hne : j ≠ n / 7) :
    windowRow s (n + 1) j = windowRow s n j := by
  unfold windowRow
  have : min 7 (n + 1 - 7 * j) = min 7 (n - 7 * j) := by omega
  rw [this]

lemma windowRow_succ (s : List Char) (n : Nat) (c : Char) (hn : s[n]? = some c) :
    windowRow s (n + 1) (n / 7) = windowRow s n (n / 7) ++ [some c] := by
  unfold windowRow
  have h1 : min 7 (n + 1 - 7 * (n / 7)) = n % 7 + 1 := by omega
  have h2 : min 7 (n - 7 * (n / 7)) = n % 7 := by omega
  rw [h1, h2, List.take_succ, List.getElem?_drop]
  have h3 : 7 * (n / 7) + n % 7 = n := by omega
  rw [h3, hn]
  simp

lemma windowRow_length (s : List Char) (n r : Nat) :
    (windowRow s n r).length = min (min 7 (n - 7 * r)) (s.length - 7 * r) := by
  unfold windowRow
  simp [List.length_take, List.length_drop]

lemma map_range_set (f : Nat → JsRow) (k : Nat) (hk : k < 7) (v : JsRow) :
    ((List.range 7).map f).set k v =
      (List.range 7).map (fun j => if j = k then v else f j) := by
  apply List.ext_getElem?
  intro j
  by_cases hj : j < 7
  · rw [List.getElem?_set]
    rw [List.getElem?_map, List.getElem?_map, List.getElem?_range hj]
    by_cases hjk : k = j
    · subst hjk
      simp [hk]
    · simp [hjk, Ne.symm hjk]
  · have h1 : (((List.range 7).map f).set k v).length = 7 := by simp
    have h2 : ((List.range 7).map (fun j => if j = k then v else f j)).length = 7 := by
      simp
    rw [List.getElem?_eq_none (by omega), List.getElem?_eq_none (by omega)]

/-- Main loop invariant: running the remaining iterations from index `n`
on the grid that holds the first `n` characters produces the grid
holding the whole (≤ 49 character) input. -/
lemma parseGridAux_ok (s : List Char) (hs : s.length ≤ 49) :
    ∀ (t : List Char) (n : Nat), t = s.drop n → n ≤ s.length →
      parseGridAux (List.enumFrom n t) ((List.range 7).map (windowRow s n)) =
        some ((List.range 7).map (windowRow s s.length)) := by
  intro t
  induction t with
  | nil =>
    intro n ht hn
    have : s.length ≤ n := List.drop_eq_nil_iff.mp ht.symm
    have hns : n = s.length := le_antisymm hn this
    simp [parseGridAux, hns]
  | cons c t' ih =>
    intro n ht hn
    have hlt : n < s.length := by
      by_contra hcon
      have h0 : s.drop n = [] := List.drop_eq_nil_iff.mpr (by omega)
      rw [h0] at ht
      exact List.noConfusion ht
    have hc : s[n]? = some c := by
      have h0 := (List.getElem?_drop s n 0).symm
      rw [← ht] at h0
      simpa using h0
    have hdiv : n / 7 < 7 := by omega
    have hrow : ((List.range 7).map (windowRow s n))[n / 7]? =
        some (windowRow s n (n / 7)) := by
      rw [List.getElem?_map, List.getElem?_range hdiv]
      rfl
    have hrowlen : (windowRow s n (n / 7)).length = n % 7 := by
      rw [windowRow_length]
      omega
    have hset : jsArraySet (windowRow s n (n / 7)) (n % 7) c =
        windowRow s (n + 1) (n / 7) := by
      rw [jsArraySet, hrowlen]
      simp only [lt_irrefl, if_false, Nat.sub_self, List.replicate_zero,
        List.nil_append]
      rw [windowRow_succ s n c hc]
      simp
    have hw : writeChar ((List.range 7).map (windowRow s n)) n c =
        some ((List.range 7).map (windowRow s (n + 1))) := by
      rw [writeChar]
      rw [hrow]
      simp only [hset]
      rw [map_range_set _ _ hdiv]
      congr 1
      apply List.map_congr_left
      intro j hj
      by_cases hjk : j = n / 7
      · subst hjk
        simp
      · simp [hjk, windowRow_stable s n j hjk]
    rw [List.enumFrom_cons]
    show (match writeChar ((List.range 7).map (windowRow s n)) n c with
      | none => none
      | some grid2 => parseGridAux (List.enumFrom (n + 1) t') grid2) = _
    rw [hw]
    have hdrop : t' = List.drop (n + 1) s := by
      have h1 : List.drop 1 (List.drop n s) = List.drop (n + 1) s :=
        List.drop_drop 1 n s
      rw [← ht] at h1
      simpa using h1
    exact ih (n + 1) hdrop (by omega)

lemma parseGridString_eq (s : List Char) (hs : s.length ≤ 49) :
    parseGridString s = some ((List.range 7).map (windowRow s s.length)) := by
  have hinit : List.replicate 7 ([] : JsRow) = (List.range 7).map (windowRow s 0) :=
    rfl
  have henum : s.enum = List.enumFrom 0 s := rfl
  rw [parseGridString, henum, hinit]
  exact parseGridAux_ok s hs s 0 rfl (Nat.zero_le _)

lemma parseGridAux_append (l1 l2 : List (Nat × Char)) (g : JsGrid) :
    parseGridAux (l1 ++ l2) g =
      (parseGridAux l1 g).bind (fun g2 => parseGridAux l2 g2) := by
  induction l1 generalizing g with
  | nil => simp [parseGridAux]
  | cons p rest ih =>
    obtain ⟨i, c⟩ := p
    show (match writeChar g i c with
      | none => none
      | some grid2 => parseGridAux (rest ++ l2) grid2) = _
    cases hw : writeChar g i c with
    | none => simp [parseGridAux, hw]
    | some g2 =>
      simp only [parseGridAux, hw, ih g2]

/-- A 50th character targets row `49 / 7 = 7`, which was never
allocated: the loop faults there. -/
lemma parseGridString_overflow (s : List Char) (hs : 50 ≤ s.length) :
    parseGridString s = none := by
  have hsplit : s = s.take 49 ++ s.drop 49 := (List.take_append_drop 49 s).symm
  have hlen49 : (s.take 49).length = 49 := by
    rw [List.length_take]; omega
  have henum : s.enum = (s.take 49).enum ++ List.enumFrom 49 (s.drop 49) := by
    conv_lhs => rw [hsplit]
    show List.enumFrom 0 _ = _
    rw [List.enumFrom_append]
    simp [hlen49]
    rfl
  have hfirst : parseGridAux (s.take 49).enum (List.replicate 7 []) =
      some ((List.range 7).map (windowRow (s.take 49) 49)) := by
    have h0 := parseGridString_eq (s.take 49) (by omega)
    rw [parseGridString] at h0
    rw [h0, hlen49]
  obtain ⟨c, t, hdrop⟩ : ∃ c t, s.drop 49 = c :: t := by
    cases hd : s.drop 49 with
    | nil =>
      exfalso
      have := List.drop_eq_nil_iff.mp hd
      omega
    | cons c t => exact ⟨c, t, rfl⟩
  rw [parseGridString, henum, parseGridAux_append, hfirst]
  rw [hdrop, List.enumFrom_cons]
  have hglen : ((List.range 7).map (windowRow (s.take 49) 49)).length = 7 := by simp
  have hw : writeChar ((List.range 7).map (windowRow (s.take 49) 49)) 49 c = none := by
    rw [writeChar]
    have : ((List.range 7).map (windowRow (s.take 49) 49))[49 / 7]? = none :=
      List.getElem?_eq_none (by rw [hglen])
    rw [this]
  rw [Option.some_bind]
  show (match writeChar ((List.range 7).map (windowRow (s.take 49) 49)) 49 c with
    | none => none
    | some grid2 => parseGridAux (List.enumFrom (49 + 1) t) grid2) = none
  rw [hw]

lemma windows_flatten (s : List Char) :
    ∀ k, ((List.range k).map (fun r => (s.drop (7 * r)).take 7)).flatten =
      s.take (7 * k) := by
  intro k
  induction k with
  | zero => rfl
  | succ k ih =>
    rw [List.range_succ, List.map_append, List.flatten_append, ih]
    have : (7 * (k + 1)) = 7 * k + 7 := by ring
    rw [this, List.take_add]
    simp

lemma flatten_window (g : List (List Char)) (hrow : ∀ row ∈ g, row.length = 7) :
    ∀ r, r < g.length →
      ∃ row, g[r]? = some row ∧ (g.flatten.drop (7 * r)).take 7 = row := by
  induction g with
  | nil => intro r hr; simp at hr
  | cons row rest ih =>
    intro r hr
    have hrl : row.length = 7 := hrow row (by simp)
    cases r with
    | zero =>
      refine ⟨row, by simp, ?_⟩
      rw [List.flatten_cons, Nat.mul_zero, List.drop_zero, ← hrl, List.take_left]
    | succ r =>
      obtain ⟨w, hw1, hw2⟩ :=
        ih (fun q hq => hrow q (by simp [hq])) r (by simpa using hr)
      refine ⟨w, by simpa using hw1, ?_⟩
      rw [List.flatten_cons]
      have : 7 * (r + 1) = row.length + 7 * r := by omega
      rw [this, List.drop_append, hw2]

/-- C1: Row-major decoding — for every 49-character string over the
`MarbleCharacter` alphabet, `parseGridString` returns a 7-row grid whose
entry at `(r, c)` (for `r, c < 7`) is the input character at index
`7*r + c`. -/
theorem parseGridString_rowMajor (s : List Char) (h49 : s.length = 49)
    (hA : ∀ ch ∈ s, ch ∈ MarbleCharacter) (r c : Nat) (hr : r < 7) (hc : c < 7) :
    ∃ g ch, parseGridString s = some g ∧ g.length = 7 ∧
      s[7 * r + c]? = some ch ∧ gridEntry g r c = some (some ch) := by
  have hidx : 7 * r + c < s.length := by omega
  refine ⟨(List.range 7).map (windowRow s s.length), s[7 * r + c], ?_, by simp,
    ?_, ?_⟩
  · exact parseGridString_eq s (by omega)
  · exact List.getElem?_eq_getElem hidx
  · rw [gridEntry, List.getElem?_map, List.getElem?_range hr]
    simp only [Option.map_some', Option.some_bind]
    rw [windowRow, List.getElem?_map]
    have hmin : min 7 (s.length - 7 * r) = 7 := by omega
    rw [hmin, List.getElem?_take, if_pos hc, List.getElem?_drop,
      List.getElem?_eq_getElem hidx]
    rfl

/-- C1 witness: the standard initial layout, entry (1, 3) is the `'R'`
at string index 10. -/
theorem parseGridString_rowMajor_witness :
    ∃ g ch,
      parseGridString ("WW   BBWW R BB  RRR   RRRRR   RRR  BB R WWBB   WW".toList) =
        some g ∧ g.length = 7 ∧
      ("WW   BBWW R BB  RRR   RRRRR   RRR  BB R WWBB   WW".toList)[7 * 1 + 3]? =
        some ch ∧ gridEntry g 1 3 = some (some ch) :=
  parseGridString_rowMajor _ (by decide) (by decide) 1 3 (by decide) (by decide)

/-- C2: Round trip — joining the rows of a parsed 49-character string
gives the string back (each cell `some`-wrapped, i.e. no holes), and
parsing the row-major join of any 7-by-7 character grid gives back that
grid; the 49-character encoding is a bijection. -/
theorem parseGrid_roundTrip (s : List Char) (h49 : s.length = 49)
    (hA : ∀ ch ∈ s, ch ∈ MarbleCharacter)
    (g : List (List Char)) (hg7 : g.length = 7)
    (hgrow : ∀ row ∈ g, row.length = 7)
    (hgA : ∀ row ∈ g, ∀ ch ∈ row, ch ∈ MarbleCharacter) :
    (∃ G, parseGridString s = some G ∧ G.flatten = s.map some) ∧
      parseGridString (joinGrid g) = some (g.map (List.map some)) := by
  constructor
  · refine ⟨(List.range 7).map (windowRow s s.length),
      parseGridString_eq s (by omega), ?_⟩
    have hcongr : (List.range 7).map (windowRow s s.length) =
        (List.range 7).map (fun r => ((s.drop (7 * r)).take 7).map some) := by
      apply List.map_congr_left
      intro r hrmem
      have hr7 : r < 7 := List.mem_range.mp hrmem
      rw [windowRow]
      have : min 7 (s.length - 7 * r) = 7 := by omega
      rw [this]
    rw [hcongr]
    have hmapflat : (List.range 7).map (fun r => ((s.drop (7 * r)).take 7).map some) =
        ((List.range 7).map (fun r => (s.drop (7 * r)).take 7)).map (List.map some) := by
      rw [List.map_map]
      rfl
    rw [hmapflat, ← List.map_flatten, windows_flatten s 7]
    have : s.take (7 * 7) = s := by
      rw [show 7 * 7 = 49 from rfl, ← h49, List.take_length]
    rw [this]
  · have hflen : (joinGrid g).length = 49 := by
      rw [joinGrid, List.length_flatten]
      have : g.map List.length = List.replicate 7 7 := by
        rw [List.eq_replicate_iff]
        constructor
        · simpa using hg7
        · intro b hb
          obtain ⟨row, hrmem, hrl⟩ := List.mem_map.mp hb
          rw [← hrl]
          exact hgrow row hrmem
      rw [this, List.sum_replicate]
      rfl
    rw [parseGridString_eq (joinGrid g) (by omega), hflen]
    congr 1
    apply List.ext_getElem?
    intro r
    by_cases hr : r < 7
    · rw [List.getElem?_map, List.getElem?_range hr, List.getElem?_map]
      obtain ⟨row, hrow?, hwin⟩ := flatten_window g hgrow r (by omega)
      rw [hrow?]
      simp only [Option.map_some']
      congr 1
      rw [windowRow]
      have : min 7 (49 - 7 * r) = 7 := by omega
      rw [this, joinGrid] at *
      rw [hwin]
    · rw [List.getElem?_eq_none (by simp; omega), List.getElem?_eq_none (by simp; omega)]

/-- C2 witness: round trip at the standard initial layout, in both
directions. -/
theorem parseGrid_roundTrip_witness :
    (∃ G, parseGridString ("WW   BBWW R BB  RRR   RRRRR   RRR  BB R WWBB   WW".toList) =
        some G ∧
      G.flatten = ("WW   BBWW R BB  RRR   RRRRR   RRR  BB R WWBB   WW".toList).map some) ∧
    parseGridString (joinGrid
        [['W','W',' ',' ',' ','B','B'], ['W','W',' ','R',' ','B','B'],
         [' ',' ','R','R','R',' ',' '], [' ','R','R','R','R','R',' '],
         [' ',' ','R','R','R',' ',' '], ['B','B',' ','R',' ','W','W'],
         ['B','B',' ',' ',' ','W','W']]) =
      some ([['W','W',' ',' ',' ','B','B'], ['W','W',' ','R',' ','B','B'],
         [' ',' ','R','R','R',' ',' '], [' ','R','R','R','R','R',' '],
         [' ',' ','R','R','R',' ',' '], ['B','B',' ','R',' ','W','W'],
         ['B','B',' ',' ',' ','W','W']].map (List.map some)) :=
  parseGrid_roundTrip _ (by decide) (by decide) _ (by decide) (by decide) (by decide)

/-- C8: Implicit totality boundary of `parseGridString` — an input of at
most 49 characters parses to a grid of exactly 7 rows whose row `r` has
`min 7 (length − 7r)` entries (so short inputs leave later rows
incomplete rather than failing), while an input of 50 or more characters
writes through the unallocated row 7 and faults. -/
theorem parseGridString_totality (s : List Char) :
    (s.length ≤ 49 → ∃ g, parseGridString s = some g ∧ g.length = 7 ∧
      ∀ r, r < 7 → ∃ row, g[r]? = some row ∧
        row.length = min 7 (s.length - 7 * r)) ∧
    (50 ≤ s.length → parseGridString s = none) := by
  constructor
  · intro hs
    refine ⟨(List.range 7).map (windowRow s s.length), parseGridString_eq s hs,
      by simp, ?_⟩
    intro r hr
    refine ⟨windowRow s s.length r, ?_, ?_⟩
    · rw [List.getElem?_map, List.getElem?_range hr]
      rfl
    · rw [windowRow_length]
      omega
  · exact parseGridString_overflow s

/-- C8 witness: a 10-character input yields a partially-filled grid and
a 50-character input faults. -/
theorem parseGridString_totality_witness :
    (∃ g, parseGridString (List.replicate 10 'R') = some g ∧ g.length = 7 ∧
      ∀ r, r < 7 → ∃ row, g[r]? = some row ∧
        row.length = min 7 ((List.replicate 10 'R').length - 7 * r)) ∧
    parseGridString (List.replicate 50 'R') = none :=
  ⟨(parseGridString_totality (List.replicate 10 'R')).1 (by simp),
   (parseGridString_totality (List.replicate 50 'R')).2 (by simp)⟩

/-! ## JSON values and the API layer (`src/marble_game_ui/src/utils/callAPI.ts`)

JSON values are modelled as an inductive type; `enc v` models a string
whose text is the JSON encoding of `v` (the API delivers `game_state`,
`board` and `players` as such nested encodings, which
`decodeGameResponse` re-parses with `JSON.parse`). -/

/-- A parsed JSON value. `enc v` is a string holding the encoding of `v`. -/
inductive Jval where
  | null
  | bool (b : Bool)
  | num (n : Int)
  | str (s : String)
  | arr (elems : List Jval)
  | obj (fields : List (String × Jval))
  | enc (v : Jval)

/-- A JS object as the response validators see it: its own enumerable
properties. A property is `undefined` exactly when it is absent. -/
abbrev JsObject := List (String × Jval)

/-- `isErrorResponse` (`validators.ts`): `obj.detail !== undefined`. -/
def isErrorResponse (o : JsObject) : Bool := (o.lookup "detail").isSome

/-- `isMoveResponse` (`validators.ts`): `obj.move_successful !== undefined`. -/
def isMoveResponse (o : JsObject) : Bool := (o.lookup "move_successful").isSome

/-- `isGameResponse` (`validators.ts`): `obj.game_state !== undefined`. -/
def isGameResponse (o : JsObject) : Bool := (o.lookup "game_state").isSome

/-- `isPlayerResponse` (`validators.ts`): `obj.current_games !== undefined`. -/
def isPlayerResponse (o : JsObject) : Bool := (o.lookup "current_games").isSome

/-- C9: Implicit — each response type guard decides membership solely by
the definedness of its one field, and the guards are not mutually
exclusive: an object carrying both `detail` and `move_successful`
satisfies both `isErrorResponse` and `isMoveResponse`. -/
theorem validators_by_single_field :
    (∀ o : JsObject,
      (isErrorResponse o = true ↔ (o.lookup "detail").isSome = true) ∧
      (isMoveResponse o = true ↔ (o.lookup "move_successful").isSome = true) ∧
      (isGameResponse o = true ↔ (o.lookup "game_state").isSome = true) ∧
      (isPlayerResponse o = true ↔ (o.lookup "current_games").isSome = true)) ∧
    (isErrorResponse [("detail", Jval.arr []), ("move_successful", Jval.bool false)] = true ∧
     isMoveResponse [("detail", Jval.arr []), ("move_successful", Jval.bool false)] = true) :=
  ⟨fun _ => ⟨Iff.rfl, Iff.rfl, Iff.rfl, Iff.rfl⟩, rfl, rfl⟩

/-! ## Declared response shapes (`src/marble_game_ui/src/utils/types.ts`)
and the snapshot fields the components read. -/

/-- Top-level fields of the `GameState` type declared in `types.ts`. -/
def gameStateFields : List String := ["board", "players"]

/-- Fields of `GameState.board` in `types.ts`. -/
def boardFields : List String := ["grid", "previous_state"]

/-- Fields of `GameState.players` in `types.ts` (note: `current_turn`
is declared here, nested inside `players`). -/
def playersFields : List String := ["playerOneID", "playerTwoID", "current_turn"]

/-- Fields of one player entry in `types.ts`. -/
def playerEntryFields : List String :=
  ["color", "red_marbles_captured", "opponent_marbles_captured"]

/-- Fields of the `MoveResponse` type in `types.ts`, with their declared
types. -/
def moveResponseFields : List (String × String) :=
  [("move_successful", "boolean"), ("game_complete", "boolean")]

/-- Top-level fields of `game_state` that the components actually read:
`board` (GameBoard.tsx line 59), `players` (GameBoard.tsx lines 65-68,
GamePage.tsx lines 134, 142-146), `winner` (GameBoard.tsx line 78,
GamePage.tsx line 125) and `current_turn` (GamePage.tsx line 129). -/
def snapshotReadsTopLevel : List String :=
  ["board", "players", "winner", "current_turn"]

/-- C3: The game snapshot consumed by the UI — the declaration in
`types.ts` carries `board.grid`/`board.previous_state` and the
per-player color and capture counts as claimed, but it nests
`current_turn` inside `players` and declares no `winner` field at all,
while the components read both `winner` and `current_turn` at the top
level of the snapshot: the declared type and the components' reads do
not agree. -/
theorem gameState_shape_divergence :
    ("winner" ∈ snapshotReadsTopLevel ∧ "winner" ∉ gameStateFields ∧
      "winner" ∉ playersFields) ∧
    ("current_turn" ∈ snapshotReadsTopLevel ∧ "current_turn" ∉ gameStateFields ∧
      "current_turn" ∈ playersFields) ∧
    (boardFields = ["grid", "previous_state"] ∧
      playerEntryFields = ["color", "red_marbles_captured", "opponent_marbles_captured"] ∧
      ¬ ∀ f ∈ snapshotReadsTopLevel, f ∈ gameStateFields) := by
  decide

/-! ## Request construction and response handling (`callAPI.ts`) -/

/-- An HTTP request as `fetch` receives it: method, URL and JSON body
(empty list for body-less GET requests). -/
structure Request where
  method : String
  url : String
  body : List (String × Jval)

/-- An HTTP response after `response.json()` succeeded: the `ok` flag
and the parsed body. -/
structure HttpResp where
  ok : Bool
  body : Jval

/-- How a `callAPI` promise settles: fulfilled, rejected with a value
passed to `Promise.reject`, or rejected through an exception escaping
the handler (an uncontrolled fault). -/
inductive FetchOutcome where
  | resolved (v : Jval)
  | rejected (v : Jval)
  | faulted

/-- `JSON.parse` on a modelled value: succeeds exactly on a string that
is a JSON encoding, and throws (`none`) otherwise. -/
def jsonParse : Jval → Option Jval
  | .enc v => some v
  | _ => none

/-- The reviver passed to `JSON.parse` in `decodeGameResponse`: the
`board` and `players` keys get their values re-parsed, everything else
passes through. -/
def reviveGameStateField (kv : String × Jval) : Option (String × Jval) :=
  if kv.1 = "board" ∨ kv.1 = "players" then
    (jsonParse kv.2).map (fun w => (kv.1, w))
  else some kv

/-- Apply the reviver to every field of the parsed `game_state` object. -/
def reviveFields : List (String × Jval) → Option (List (String × Jval))
  | [] => some []
  | kv :: rest =>
    (reviveGameStateField kv).bind (fun w =>
      (reviveFields rest).map (fun ws => w :: ws))

/-- Parsing the `game_state` string with the reviver. -/
def decodeGameState (gs : Jval) : Option Jval :=
  (jsonParse gs).bind (fun parsed =>
    match parsed with
    | .obj fs => (reviveFields fs).map Jval.obj
    | v => some v)

/-- Replace the value of a key in an object's field list. -/
def setField (fields : List (String × Jval)) (key : String) (v : Jval) :
    List (String × Jval) :=
  fields.map (fun kv => if kv.1 = key then (kv.1, v) else kv)

/-- `decodeGameResponse` (`callAPI.ts` lines 183-202): if the response
has no `game_state` property it is returned unchanged; otherwise
`game_state` is parsed (with the reviver) and replaced in place.
`none` models a thrown `SyntaxError`. -/
def decodeGameResponse (g : Jval) : Option Jval :=
  match g with
  | .obj fields =>
    match fields.lookup "game_state" with
    | none => some g
    | some gs =>
      (decodeGameState gs).map (fun v => Jval.obj (setField fields "game_state" v))
  | _ => some g

/-- The `parsedResponse.forEach(decodeGameResponse)` loop of the
games-list endpoints: decode every element, faulting if any decode
throws. -/
def decodeAll : List Jval → Option (List Jval)
  | [] => some []
  | g :: rest =>
    (decodeGameResponse g).bind (fun v => (decodeAll rest).map (fun vs => v :: vs))

/-- `move` (`callAPI.ts` lines 18-44): the PATCH request it sends and
how its promise settles as a function of the response. -/
def move (playerID gameID : String) (rowCoord colCoord : Int)
    (direction : String) (resp : HttpResp) : Request × FetchOutcome :=
  ({ method := "PATCH"
     url := "/game/" ++ gameID ++ "/make-move"
     body := [("player_id", Jval.str playerID), ("row_coord", Jval.num rowCoord),
              ("col_coord", Jval.num colCoord), ("direction", Jval.str direction)] },
   if resp.ok = false then .rejected resp.body else .resolved resp.body)

/-- `getGame` (`callAPI.ts` lines 53-69): GET, then decode `game_state`. -/
def getGame (gameID : String) (resp : HttpResp) : Request × FetchOutcome :=
  ({ method := "GET", url := "/game/" ++ gameID, body := [] },
   if resp.ok = false then .rejected resp.body
   else match decodeGameResponse resp.body with
     | some v => .resolved v
     | none => .faulted)

/-- `createOnePlayerGame` (`callAPI.ts` lines 78-98). -/
def createOnePlayerGame (playerID : String) (playerMarbleColor : Char)
    (resp : HttpResp) : Request × FetchOutcome :=
  ({ method := "POST", url := "/game/"
     body := [("player_one_id", Jval.str playerID),
              ("player_one_color", Jval.str playerMarbleColor.toString)] },
   if resp.ok = false then .rejected resp.body
   else match decodeGameResponse resp.body with
     | some v => .resolved v
     | none => .faulted)

/-- `getUser` (`callAPI.ts` lines 106-120). -/
def getUser (playerID : String) (resp : HttpResp) : Request × FetchOutcome :=
  ({ method := "GET", url := "/player/" ++ playerID, body := [] },
   if resp.ok = false then .rejected resp.body else .resolved resp.body)

/-- `getUserCurrentGames` (`callAPI.ts` lines 131-147): GET, then decode
each element of the returned array in place. -/
def getUserCurrentGames (playerID : String) (skip limit : Int)
    (resp : HttpResp) : Request × FetchOutcome :=
  ({ method := "GET"
     url := "/player/" ++ playerID ++ "/games/current?skip=" ++ toString skip ++
       "&limit=" ++ toString limit
     body := [] },
   if resp.ok = false then .rejected resp.body
   else match resp.body with
     | .arr xs =>
       match decodeAll xs with
       | some ys => .resolved (.arr ys)
       | none => .faulted
     | _ => .faulted)

/-- `getUserCompletedGames` (`callAPI.ts` lines 157-173). -/
def getUserCompletedGames (playerID : String) (skip limit : Int)
    (resp : HttpResp) : Request × FetchOutcome :=
  ({ method := "GET"
     url := "/player/" ++ playerID ++ "/games/completed?skip=" ++ toString skip ++
       "&limit=" ++ toString limit
     body := [] },
   if resp.ok = false then .rejected resp.body
   else match resp.body with
     | .arr xs =>
       match decodeAll xs with
       | some ys => .resolved (.arr ys)
       | none => .faulted
     | _ => .faulted)

/-- C4: The body of the request `callAPI.move` sends is exactly the
four-field object `{player_id, row_coord, col_coord, direction}` with
the arguments passed through unchanged, and the declared fulfilled
result type has exactly the two boolean fields `move_successful` and
`game_complete`. -/
theorem move_request_shape (playerID gameID : String) (rowCoord colCoord : Int)
    (direction : String) (resp : HttpResp) :
    (move playerID gameID rowCoord colCoord direction resp).1.body =
      [("player_id", Jval.str playerID), ("row_coord", Jval.num rowCoord),
       ("col_coord", Jval.num colCoord), ("direction", Jval.str direction)] ∧
    ((move playerID gameID rowCoord colCoord direction resp).1.body.map Prod.fst =
      ["player_id", "row_coord", "col_coord", "direction"]) ∧
    moveResponseFields = [("move_successful", "boolean"), ("game_complete", "boolean")] :=
  ⟨rfl, rfl, rfl⟩

/-! ## Pointer-gesture direction mapping
(`src/marble_game_ui/src/components/GameBoard/GameBoard.tsx`,
`selectDestination`, mouse-pointer branch; on integer grid coordinates
`Math.round` is the identity). -/

/-- The four direction letters sent to the API. -/
inductive MoveDir where
  | F
  | B
  | L
  | R
deriving DecidableEq

/-- The direction computation of `selectDestination` for a mouse
gesture from cell `(r0, c0)` to cell `(r1, c1)`: `none` when the
gesture is diagonal or did not move, otherwise the letter sent to
`callAPI.move`. -/
def selectDestinationDirection (r0 c0 r1 c1 : Int) : Option MoveDir :=
  let deltaRow := r1 - r0
  let deltaCol := c1 - c0
  if 0 < |deltaRow| ∧ 0 < |deltaCol| then none
  else if deltaRow = 0 ∧ deltaCol = 0 then none
  else some (if 0 < deltaCol then .R
    else if deltaCol < 0 then .L
    else if deltaRow < 0 then .F
    else .B)

/-- C5: Direction mapping — for a mouse gesture in which exactly one of
the row and column deltas is nonzero, a direction is produced and it is
`R` iff the column grew, `L` iff it shrank, `F` iff the columns are
equal and the row shrank (up), and `B` iff the columns are equal and
the row grew (down). -/
theorem selectDestination_direction (r0 c0 r1 c1 : Int)
    (h : (r1 ≠ r0 ∧ c1 = c0) ∨ (r1 = r0 ∧ c1 ≠ c0)) :
    ∃ d, selectDestinationDirection r0 c0 r1 c1 = some d ∧
      (d = .R ↔ c0 < c1) ∧ (d = .L ↔ c1 < c0) ∧
      (d = .F ↔ (c1 = c0 ∧ r1 < r0)) ∧ (d = .B ↔ (c1 = c0 ∧ r0 < r1)) := by
  rcases h with ⟨hr, hc⟩ | ⟨hr, hc⟩
  · subst hc
    rcases lt_trichotomy r1 r0 with hlt | heq | hgt
    · refine ⟨.F, ?_⟩
      simp only [selectDestinationDirection]
      rw [if_neg (by simp), if_neg (by simp <;> omega)]
      constructor
      · congr 1
        rw [if_neg (by omega), if_neg (by omega), if_pos (by omega)]
      · exact ⟨by simp <;> omega, by simp <;> omega, by simp <;> omega,
          by simp <;> omega⟩
    · exact absurd heq hr
    · refine ⟨.B, ?_⟩
      simp only [selectDestinationDirection]
      rw [if_neg (by simp), if_neg (by simp <;> omega)]
      constructor
      · congr 1
        rw [if_neg (by omega), if_neg (by omega), if_neg (by omega)]
      · exact ⟨by simp <;> omega, by simp <;> omega, by simp <;> omega,
          by simp <;> omega⟩
  · subst hr
    rcases lt_trichotomy c1 c0 with hlt | heq | hgt
    · refine ⟨.L, ?_⟩
      simp only [selectDestinationDirection]
      rw [if_neg (by simp <;> omega), if_neg (by simp <;> omega)]
      constructor
      · congr 1
        rw [if_neg (by omega), if_pos (by omega)]
      · exact ⟨by simp <;> omega, by simp <;> omega, by simp <;> omega,
          by simp <;> omega⟩
    · exact absurd heq hc
    · refine ⟨.R, ?_⟩
      simp only [selectDestinationDirection]
      rw [if_neg (by simp <;> omega), if_neg (by simp <;> omega)]
      constructor
      · congr 1
        rw [if_pos (by omega)]
      · exact ⟨by simp <;> omega, by simp <;> omega, by simp <;> omega,
          by simp <;> omega⟩

/-- C5 witness: dragging from (2, 3) to (2, 5) maps to `R`. -/
theorem selectDestination_direction_witness :
    ∃ d, selectDestinationDirection 2 3 2 5 = some d ∧
      (d = .R ↔ (3 : Int) < 5) ∧ (d = .L ↔ (5 : Int) < 3) ∧
      (d = .F ↔ ((5 : Int) = 3 ∧ (2 : Int) < 2)) ∧
      (d = .B ↔ ((5 : Int) = 3 ∧ (2 : Int) < 2)) :=
  selectDestination_direction 2 3 2 5 (by omega)

/-! ## Marble-color selection
(`src/marble_game_ui/src/pages/GamePage.tsx`, `onCreateGame`). -/

/-- `Math.round` of ECMA-262 on a nonnegative argument: the closest
integer, ties toward plus infinity, i.e. `⌊x + 1/2⌋`. -/
def jsRound (q : ℚ) : Int := ⌊q + 1 / 2⌋

/-- The color pick of `onCreateGame`:
`['B', 'W'][Math.round(Math.random())]`, as a function of the value
returned by `Math.random()`. -/
def onCreateGameMarbleColor (q : ℚ) : Option Char :=
  (['B', 'W'] : List Char)[(jsRound q).toNat]?

/-- The documented precondition of `callAPI.createOnePlayerGame`:
`playerMarbleColor` is `'B'` or `'W'`. -/
def createOnePlayerGamePrecond (ch : Char) : Prop := ch = 'B' ∨ ch = 'W'

/-- C10: Implicit — for every `Math.random()` value in `[0, 1)`,
`Math.round` of it is 0 or 1, the array index is in bounds, and the
selected color satisfies `createOnePlayerGame`'s precondition (the
argument is never `undefined`). -/
theorem onCreateGame_color_safe (q : ℚ) (h0 : 0 ≤ q) (h1 : q < 1) :
    (jsRound q = 0 ∨ jsRound q = 1) ∧
    ∃ ch, onCreateGameMarbleColor q = some ch ∧ createOnePlayerGamePrecond ch := by
  have hge : (0 : Int) ≤ jsRound q := by
    rw [jsRound]
    rw [Int.le_floor]
    push_cast
    linarith
  have hlt2 : jsRound q < 2 := by
    rw [jsRound]
    rw [Int.floor_lt]
    push_cast
    linarith
  have hcases : jsRound q = 0 ∨ jsRound q = 1 := by omega
  refine ⟨hcases, ?_⟩
  rcases hcases with h | h
  · exact ⟨'B', by rw [onCreateGameMarbleColor, h]; rfl, Or.inl rfl⟩
  · exact ⟨'W', by rw [onCreateGameMarbleColor, h]; rfl, Or.inr rfl⟩

/-- C10 witness: at `Math.random() = 1/2` the pick is defined and
satisfies the precondition. -/
theorem onCreateGame_color_safe_witness :
    (jsRound (1 / 2 : ℚ) = 0 ∨ jsRound (1 / 2 : ℚ) = 1) ∧
    ∃ ch, onCreateGameMarbleColor (1 / 2 : ℚ) = some ch ∧
      createOnePlayerGamePrecond ch :=
  onCreateGame_color_safe (1 / 2 : ℚ) (by norm_num) (by norm_num)

/-! ## GameBoard's handling of a failed move
(`GameBoard.tsx`, `selectDestination`, lines 185-193). -/

/-- An alert pushed to the `MessageStack`. -/
structure AlertMessage where
  severity : String
  message : String

/-- What `selectDestination` shows after `callAPI.move` fulfills: an
info alert when `move_successful` is false, nothing otherwise. -/
def gameBoardMoveAlert (moveSuccessful : Bool) : Option AlertMessage :=
  if moveSuccessful = false then some ⟨"info", "The proposed move was invalid"⟩
  else none

/-- C6: Rejections are returned, not thrown — every `callAPI` request
function fulfills with the parsed body exactly when the response is ok
(for the game endpoints, with `game_state` decoded in place) and
otherwise rejects with the parsed error body; and a fulfilled move
response with `move_successful = false` becomes a user-visible info
alert in `GameBoard`, not an error. -/
theorem callAPI_rejections_returned (pid gid dir : String)
    (rc cc sk lim : Int) (color : Char) (resp : HttpResp) :
    (resp.ok = true →
      (move pid gid rc cc dir resp).2 = .resolved resp.body ∧
      (getUser pid resp).2 = .resolved resp.body) ∧
    (resp.ok = false →
      (move pid gid rc cc dir resp).2 = .rejected resp.body ∧
      (getGame gid resp).2 = .rejected resp.body ∧
      (createOnePlayerGame pid color resp).2 = .rejected resp.body ∧
      (getUser pid resp).2 = .rejected resp.body ∧
      (getUserCurrentGames pid sk lim resp).2 = .rejected resp.body ∧
      (getUserCompletedGames pid sk lim resp).2 = .rejected resp.body) ∧
    (∀ v, resp.ok = true → decodeGameResponse resp.body = some v →
      (getGame gid resp).2 = .resolved v ∧
      (createOnePlayerGame pid color resp).2 = .resolved v) ∧
    (∀ xs ys, resp.ok = true → resp.body = Jval.arr xs →
      decodeAll xs = some ys →
      (getUserCurrentGames pid sk lim resp).2 = .resolved (Jval.arr ys) ∧
      (getUserCompletedGames pid sk lim resp).2 = .resolved (Jval.arr ys)) ∧
    (gameBoardMoveAlert false = some ⟨"info", "The proposed move was invalid"⟩ ∧
      gameBoardMoveAlert true = none) := by
  obtain ⟨ok, body⟩ := resp
  cases ok with
  | true =>
    refine ⟨fun _ => ⟨rfl, rfl⟩, fun h => absurd h (by simp), ?_, ?_, rfl, rfl⟩
    · intro v _ hd
      constructor
      · simp [getGame, hd]
      · simp [createOnePlayerGame, hd]
    · intro xs ys _ hb hm
      subst hb
      constructor
      · simp [getUserCurrentGames, hm]
      · simp [getUserCompletedGames, hm]
  | false =>
    refine ⟨fun h => absurd h (by simp), fun _ => ⟨rfl, rfl, rfl, rfl, rfl, rfl⟩,
      ?_, ?_, rfl, rfl⟩
    · intro v hok _
      exact absurd hok (by simp)
    · intro xs ys hok _ _
      exact absurd hok (by simp)

/-- A game document as the API delivers it: `game_state` (and, inside
it, `board` and `players`) arrive JSON-encoded. -/
def sampleGameBody : Jval :=
  Jval.obj [("id", Jval.str "g1"),
    ("game_state", Jval.enc (Jval.obj
      [("board", Jval.enc (Jval.obj [("grid", Jval.str "x")])),
       ("players", Jval.enc (Jval.obj [])),
       ("current_turn", Jval.str "p1"),
       ("winner", Jval.null)]))]

/-- `sampleGameBody` after `decodeGameResponse`. -/
def sampleGameDecoded : Jval :=
  Jval.obj [("id", Jval.str "g1"),
    ("game_state", Jval.obj
      [("board", Jval.obj [("grid", Jval.str "x")]),
       ("players", Jval.obj []),
       ("current_turn", Jval.str "p1"),
       ("winner", Jval.null)])]

/-- A FastAPI-style error body. -/
def sampleError : Jval := Jval.obj [("detail", Jval.arr [])]

/-- C6 witness: concrete ok and non-ok responses settle as the theorem
says, and the failed-move alert is produced. -/
theorem callAPI_rejections_returned_witness :
    (move "p" "g" 1 2 "R" ⟨true, sampleGameBody⟩).2 = .resolved sampleGameBody ∧
    (move "p" "g" 1 2 "R" ⟨false, sampleError⟩).2 = .rejected sampleError ∧
    (getGame "g" ⟨true, sampleGameBody⟩).2 = .resolved sampleGameDecoded ∧
    (getUserCurrentGames "p" 0 100 ⟨true, Jval.arr [sampleGameBody]⟩).2 =
      .resolved (Jval.arr [sampleGameDecoded]) ∧
    gameBoardMoveAlert false = some ⟨"info", "The proposed move was invalid"⟩ :=
  ⟨((callAPI_rejections_returned "p" "g" "R" 1 2 0 100 'B'
      ⟨true, sampleGameBody⟩).1 rfl).1,
   ((callAPI_rejections_returned "p" "g" "R" 1 2 0 100 'B'
      ⟨false, sampleError⟩).2.1 rfl).1,
   ((callAPI_rejections_returned "p" "g" "R" 1 2 0 100 'B'
      ⟨true, sampleGameBody⟩).2.2.1 sampleGameDecoded rfl rfl).1,
   ((callAPI_rejections_returned "p" "g" "R" 1 2 0 100 'B'
      ⟨true, Jval.arr [sampleGameBody]⟩).2.2.2.1 [sampleGameBody]
      [sampleGameDecoded] rfl rfl rfl).1,
   (callAPI_rejections_returned "p" "g" "R" 1 2 0 100 'B'
      ⟨true, sampleGameBody⟩).2.2.2.2.1⟩

/-! ## The rules engine's move check

The engine itself (the `marble_game` module) lives behind the HTTP API
and is not part of the front-end sources; it is modelled here from the
design document, §4.2. -/

/-- Modelled from the spec: a board cell of the missing `marble_game`
rules engine — Empty, PlayerA/White, PlayerB/Black or Red (§3). -/
inductive Cell where
  | empty
  | white
  | black
  | red
deriving DecidableEq

/-- Modelled from the spec: a player's assigned marble color (§3). -/
inductive PColor where
  | white
  | black
deriving DecidableEq

/-- The cell holding a marble of the given color. -/
def PColor.cell : PColor → Cell
  | .white => .white
  | .black => .black

/-- Modelled from the spec: the engine's 7-by-7 board (§3), as rows of
cells. -/
abbrev Board := List (List Cell)

/-- Modelled from the spec: the (row, col) step of each direction —
Forward(−row), Backward(+row), Left(−col), Right(+col) (§3). -/
def MoveDir.delta : MoveDir → Int × Int
  | .F => (-1, 0)
  | .B => (1, 0)
  | .L => (0, -1)
  | .R => (0, 1)

/-- Modelled from the spec: `Board.get` — `none` off the board (§4.1). -/
def getCell (bd : Board) (r c : Int) : Option Cell :=
  if 0 ≤ r ∧ 0 ≤ c then (bd[r.toNat]?).bind (fun row => row[c.toNat]?) else none

/-- Modelled from the spec: `Board.withMarbleSet` — one cell changed,
no-op off the board (§4.1). -/
def setCell (bd : Board) (r c : Int) (v : Cell) : Board :=
  if 0 ≤ r ∧ 0 ≤ c then
    match bd[r.toNat]? with
    | some row => bd.set r.toNat (row.set c.toNat v)
    | none => bd
  else bd

/-- Modelled from the spec: step 3 of the rule engine — the maximal
contiguous run of non-Empty cells from the source in the push
direction, stopping at the first Empty cell or the board edge (§4.2);
fuel 7 covers the board dimension. -/
def collectLine (bd : Board) (dr dc : Int) : Int → Int → Nat → List (Int × Int)
  | _, _, 0 => []
  | r, c, fuel + 1 =>
    match getCell bd r c with
    | none => []
    | some Cell.empty => []
    | some _ => (r, c) :: collectLine bd dr dc (r + dr) (c + dc) fuel

/-- Modelled from the spec: the capture delta of a move — 0 or 1 Red,
0 or 1 opponent marble (§4.2 step 7). -/
structure Captures where
  red : Nat
  opponent : Nat
deriving DecidableEq

/-- Modelled from the spec: shifting the pushed line one step in the
push direction (§4.2 step 4) — every marble of the line moves to its
successor cell (a marble leaving the board just disappears, since
`setCell` off-board is a no-op), and the vacated source becomes Empty. -/
def shiftLine (bd : Board) (line : List (Int × Int)) (dr dc : Int) : Board :=
  let vals := line.map (fun p => getCell bd p.1 p.2)
  let bd2 := (line.zip vals).foldl
    (fun acc pv =>
      match pv.2 with
      | some cv => setCell acc (pv.1.1 + dr) (pv.1.2 + dc) cv
      | none => acc) bd
  match line with
  | [] => bd2
  | p :: _ => setCell bd2 p.1 p.2 Cell.empty

/-- Modelled from the spec: the rule-engine failure taxonomy (§7). -/
inductive MoveError where
  | outOfRange
  | noOwnMarbleAtSource
  | noSupport
  | suicideMove
  | koViolation
deriving DecidableEq

/-- Modelled from the spec: steps 3-5 of the rule engine of the missing
`marble_game` module — line identification, destination check and the
suicide/capture rule (§4.2). The `some _` destination arm cannot occur
for the maximal line; the spec calls it an invariant violation. -/
def pushLine (bd : Board) (mover : PColor) (r c dr dc : Int) :
    Except MoveError (Board × Captures) :=
  let line := collectLine bd dr dc r c 7
  let len : Int := line.length
  match getCell bd (r + len * dr) (c + len * dc) with
  | some Cell.empty => .ok (shiftLine bd line dr dc, ⟨0, 0⟩)
  | some _ => .error .outOfRange
  | none =>
    match getCell bd (r + (len - 1) * dr) (c + (len - 1) * dc) with
    | some ex =>
      if ex = mover.cell then .error .suicideMove
      else .ok (shiftLine bd line dr dc,
        if ex = Cell.red then ⟨1, 0⟩ else ⟨0, 1⟩)
    | none => .error .outOfRange

/-- Modelled from the spec: steps 1-5 of the rule engine of the missing
`marble_game` module — ownership and support checks, then the push
(§4.2); everything except the final Ko check. -/
def pushResult (bd : Board) (mover : PColor) (r c : Int) (d : MoveDir) :
    Except MoveError (Board × Captures) :=
  let dr := (MoveDir.delta d).1
  let dc := (MoveDir.delta d).2
  match getCell bd r c with
  | none => .error .outOfRange
  | some cell =>
    if cell = mover.cell then
      match getCell bd (r - dr) (c - dc) with
      | none => pushLine bd mover r c dr dc
      | some Cell.empty => pushLine bd mover r c dr dc
      | some _ => .error .noSupport
    else .error .noOwnMarbleAtSource

/-- Modelled from the spec: the full move check of the missing
`marble_game` rules engine (§4.2) — steps 1-5, then the Ko check
against the retained pre-opponent-move snapshot (step 6). -/
def checkMove (bd : Board) (mover : PColor) (r c : Int) (d : MoveDir)
    (snapshot : Board) : Except MoveError (Board × Captures) :=
  match pushResult bd mover r c d with
  | .error e => .error e
  | .ok bc => if bc.1 = snapshot then .error .koViolation else .ok bc

lemma pushLine_ne_ko (bd : Board) (mover : PColor) (r c dr dc : Int) :
    pushLine bd mover r c dr dc ≠ .error .koViolation := by
  rw [pushLine]
  split
  · simp
  · simp
  · split
    · split
      · simp
      · simp
    · simp

lemma pushResult_ne_ko (bd : Board) (mover : PColor) (r c : Int) (d : MoveDir) :
    pushResult bd mover r c d ≠ .error .koViolation := by
  rw [pushResult]
  split
  · simp
  · split
    · split
      · apply pushLine_ne_ko
      · apply pushLine_ne_ko
      · simp
    · simp

lemma checkMove_of_error (bd snap : Board) (mover : PColor) (r c : Int)
    (d : MoveDir) (e : MoveError) (hp : pushResult bd mover r c d = .error e) :
    checkMove bd mover r c d snap = .error e := by
  rw [checkMove, hp]

lemma checkMove_of_ok (bd snap : Board) (mover : PColor) (r c : Int)
    (d : MoveDir) (bc : Board × Captures)
    (hp : pushResult bd mover r c d = .ok bc) :
    checkMove bd mover r c d snap =
      if bc.1 = snap then .error .koViolation else .ok bc := by
  rw [checkMove, hp]

/-- C7: Ko rule — a proposed move fails with `KoViolation` exactly when
it passes ownership/support/destination/suicide checking and the board
that would result is cell-for-cell identical to the retained snapshot
of the board before the opponent's most recent move; any legal move
whose result differs from that snapshot is accepted unchanged. -/
theorem checkMove_ko_iff (bd snap : Board) (mover : PColor) (r c : Int)
    (d : MoveDir) :
    (checkMove bd mover r c d snap = .error .koViolation ↔
      ∃ bc : Board × Captures, pushResult bd mover r c d = .ok bc ∧ bc.1 = snap) ∧
    (∀ bc : Board × Captures, pushResult bd mover r c d = .ok bc → bc.1 ≠ snap →
      checkMove bd mover r c d snap = .ok bc) := by
  constructor
  · cases hp : pushResult bd mover r c d with
    | error e =>
      rw [checkMove_of_error bd snap mover r c d e hp]
      constructor
      · intro h
        injection h with h1
        rw [h1] at hp
        exact absurd hp (pushResult_ne_ko bd mover r c d)
      · rintro ⟨bc, hbc, -⟩
        exact Except.noConfusion hbc
    | ok bc =>
      rw [checkMove_of_ok bd snap mover r c d bc hp]
      by_cases heq : bc.1 = snap
      · rw [if_pos heq]
        exact ⟨fun _ => ⟨bc, rfl, heq⟩, fun _ => rfl⟩
      · rw [if_neg heq]
        constructor
        · intro h
          exact Except.noConfusion h
        · rintro ⟨bc2, hbc2, heq2⟩
          injection hbc2 with h2
          rw [h2] at heq
          exact absurd heq2 heq
  · intro bc hp hne
    rw [checkMove_of_ok bd snap mover r c d bc hp, if_neg hne]

/-- Decoding of one compact-string character into a cell (§6). -/
def charCell (ch : Char) : Cell :=
  if ch = 'W' then .white else if ch = 'B' then .black
  else if ch = 'R' then .red else .empty

/-- The standard initial layout (§6). -/
def initialBoard : Board :=
  ["WW   BB", "WW R BB", "  RRR  ", " RRRRR ", "  RRR  ", "BB R WW",
   "BB   WW"].map (fun row => row.toList.map charCell)

/-- The initial layout after White pushes (0,0) Right: the two White
marbles of row 0 shift one column (§8 scenario). -/
def initialBoardPushedR : Board :=
  [" WW  BB", "WW R BB", "  RRR  ", " RRRRR ", "  RRR  ", "BB R WW",
   "BB   WW"].map (fun row => row.toList.map charCell)

/-- C7 witness: against the snapshot matching the move's own result the
move is a `KoViolation`; against a different snapshot the same move is
accepted. -/
theorem checkMove_ko_iff_witness :
    checkMove initialBoard PColor.white 0 0 MoveDir.R initialBoardPushedR =
      .error .koViolation ∧
    checkMove initialBoard PColor.white 0 0 MoveDir.R initialBoard =
      .ok (initialBoardPushedR, ⟨0, 0⟩) :=
  ⟨(checkMove_ko_iff initialBoard initialBoardPushedR PColor.white 0 0
      MoveDir.R).1.mpr ⟨(initialBoardPushedR, ⟨0, 0⟩), rfl, rfl⟩,
   (checkMove_ko_iff initialBoard initialBoard PColor.white 0 0 MoveDir.R).2
      (initialBoardPushedR, ⟨0, 0⟩) rfl (by decide)⟩

end KubaLibre
